import Mathlib

/-!
Verification of the framing and request/response protocol layer of
yktotp-jsonapi (src/api.rs): the length-prefixed binary framing, the JSON
request/response transcoding, and the dispatch logic.

Bytes are modelled as `Nat` values (each produced byte is < 256); a byte
stream is a `List Nat` consumed from the front.  The platform's native byte
order is little-endian on the supported targets (x86_64 / aarch64), matching
the byte-level expectations in the repository's own tests.
-/

namespace YkTotp

/-- The error enum of src/api.rs.  The payloads of `Yubikey` and `Oath`
are the collaborator errors; since the collaborator modules are not part of
the protocol layer source, each is modelled by its debug-rendered text. -/
inductive Error where
  | Read : Error
  | Write : Error
  | Yubikey : String → Error
  | Oath : String → Error
deriving DecidableEq

/-- `format!("\x7b:?\x7d", e)` on the derived `Debug` of `Error`: the variant
name, with the inner error's debug text in parentheses for the payload
variants. -/
def debugFmt : Error → String
  | Error.Read => "Read"
  | Error.Write => "Write"
  | Error.Yubikey e => "Yubikey(" ++ e ++ ")"
  | Error.Oath e => "Oath(" ++ e ++ ")"

/-- `u32::to_ne_bytes` (native = little-endian): the four bytes of a 32-bit
value, least significant first. -/
def u32ToNeBytes (n : Nat) : List Nat :=
  [n % 256, n / 256 % 256, n / 65536 % 256, n / 16777216 % 256]

/-- `u32::from_ne_bytes` (native = little-endian) on a 4-byte buffer. -/
def u32FromNeBytes (bs : List Nat) : Nat :=
  bs.getD 0 0 + 256 * bs.getD 1 0 + 65536 * bs.getD 2 0 + 16777216 * bs.getD 3 0

/-- `Read::read_exact` into an `n`-byte buffer: succeeds with exactly the
first `n` bytes and the unconsumed remainder of the stream, or fails when
the stream holds fewer than `n` bytes. -/
def readExact (n : Nat) (s : List Nat) : Except Error (List Nat × List Nat) :=
  if n ≤ s.length then Except.ok (s.take n, s.drop n) else Except.error Error.Read

/-- `read_input` of src/api.rs: read 4 bytes, interpret them as a native
byte order `u32` length, convert to `usize` (always representable on the
64-bit targets modelled here), then read exactly that many payload bytes.
Returns the payload together with the unconsumed rest of the stream. -/
def read_input (s : List Nat) : Except Error (List Nat × List Nat) :=
  match readExact 4 s with
  | Except.error e => Except.error e
  | Except.ok (rawLen, s1) => readExact (u32FromNeBytes rawLen) s1

/-! ### UTF-8 codec

`deserialize_request` first runs `std::str::from_utf8`, so the byte-level
UTF-8 validation is part of the embedded behaviour. -/

/-- The opening brace character (written numerically). -/
def lbrace : Char := Char.ofNat 123

/-- The closing brace character (written numerically). -/
def rbrace : Char := Char.ofNat 125

/-- UTF-8 continuation byte test (0x80–0xBF). -/
def isCont (b : Nat) : Bool := decide (128 ≤ b) && decide (b < 192)

/-- UTF-8 decoding (the validation performed by `std::str::from_utf8`),
fuel-indexed; rejects overlong encodings, surrogate code points and values
above U+10FFFF, exactly as Rust does. -/
def utf8DecodeAux : Nat → List Nat → Option (List Char)
  | 0, _ => none
  | _, [] => some []
  | fuel + 1, b :: rest =>
    if b < 128 then
      (utf8DecodeAux fuel rest).map (fun cs => Char.ofNat b :: cs)
    else if 194 ≤ b ∧ b ≤ 223 then
      match rest with
      | b1 :: rest1 =>
        if isCont b1 then
          (utf8DecodeAux fuel rest1).map
            (fun cs => Char.ofNat ((b - 192) * 64 + (b1 - 128)) :: cs)
        else none
      | [] => none
    else if 224 ≤ b ∧ b ≤ 239 then
      match rest with
      | b1 :: b2 :: rest2 =>
        let c := (b - 224) * 4096 + (b1 - 128) * 64 + (b2 - 128)
        if isCont b1 ∧ isCont b2 ∧ 2048 ≤ c ∧ ¬(55296 ≤ c ∧ c ≤ 57343) then
          (utf8DecodeAux fuel rest2).map (fun cs => Char.ofNat c :: cs)
        else none
      | _ => none
    else if 240 ≤ b ∧ b ≤ 244 then
      match rest with
      | b1 :: b2 :: b3 :: rest3 =>
        let c := (b - 240) * 262144 + (b1 - 128) * 4096 + (b2 - 128) * 64 + (b3 - 128)
        if isCont b1 ∧ isCont b2 ∧ isCont b3 ∧ 65536 ≤ c ∧ c ≤ 1114111 then
          (utf8DecodeAux fuel rest3).map (fun cs => Char.ofNat c :: cs)
        else none
      | _ => none
    else none

/-- `std::str::from_utf8`: bytes to text, or `none` on invalid UTF-8. -/
def utf8Decode (bs : List Nat) : Option (List Char) :=
  utf8DecodeAux (bs.length + 1) bs

/-- UTF-8 encoding of one scalar value (`str::as_bytes` per character). -/
def utf8EncodeChar (c : Char) : List Nat :=
  let n := c.toNat
  if n < 128 then [n]
  else if n < 2048 then [192 + n / 64, 128 + n % 64]
  else if n < 65536 then [224 + n / 4096, 128 + n / 64 % 64, 128 + n % 64]
  else [240 + n / 262144, 128 + n / 4096 % 64, 128 + n / 64 % 64, 128 + n % 64]

/-- `str::as_bytes`: UTF-8 encoding of a character sequence. -/
def utf8Encode (cs : List Char) : List Nat :=
  cs.foldr (fun c acc => utf8EncodeChar c ++ acc) []

/-! ### JSON values and the strict parser (`serde_json::from_str`) -/

/-- JSON values.  Numbers keep their source lexeme: the protocol layer never
inspects a numeric value, only whether a field is a string. -/
inductive Json where
  | null : Json
  | bool : Bool → Json
  | num : List Char → Json
  | str : List Char → Json
  | arr : List Json → Json
  | obj : List (List Char × Json) → Json

/-- JSON insignificant whitespace. -/
def isWs (c : Char) : Bool :=
  decide (c = ' ') || decide (c = '\t') || decide (c = '\n') || decide (c = '\r')

/-- Drop leading JSON whitespace. -/
def skipWs : List Char → List Char
  | [] => []
  | c :: rest => if isWs c then skipWs rest else c :: rest

/-- Value of a hexadecimal digit in a `\u` escape. -/
def hexVal (c : Char) : Option Nat :=
  if '0' ≤ c ∧ c ≤ '9' then some (c.toNat - 48)
  else if 'a' ≤ c ∧ c ≤ 'f' then some (c.toNat - 87)
  else if 'A' ≤ c ∧ c ≤ 'F' then some (c.toNat - 55)
  else none

/-- Single-character JSON escapes. -/
def escUnescape (c : Char) : Option Char :=
  if c = '"' then some '"'
  else if c = '\\' then some '\\'
  else if c = '/' then some '/'
  else if c = 'b' then some (Char.ofNat 8)
  else if c = 'f' then some (Char.ofNat 12)
  else if c = 'n' then some '\n'
  else if c = 'r' then some '\r'
  else if c = 't' then some '\t'
  else none

/-- Body of a JSON string after the opening quote: returns the decoded
characters and the input following the closing quote.  Unescaped control
characters and lone surrogate escapes are rejected, as `serde_json` does. -/
def parseStrBody : Nat → List Char → Option (List Char × List Char)
  | 0, _ => none
  | _, [] => none
  | fuel + 1, c :: rest =>
    if c = '"' then some ([], rest)
    else if c = '\\' then
      match rest with
      | 'u' :: a :: b :: d :: e :: rest1 =>
        match hexVal a, hexVal b, hexVal d, hexVal e with
        | some x1, some x2, some x3, some x4 =>
          let n := x1 * 4096 + x2 * 256 + x3 * 16 + x4
          if 55296 ≤ n ∧ n ≤ 56319 then
            match rest1 with
            | '\\' :: 'u' :: a2 :: b2 :: d2 :: e2 :: rest2 =>
              match hexVal a2, hexVal b2, hexVal d2, hexVal e2 with
              | some y1, some y2, some y3, some y4 =>
                let m := y1 * 4096 + y2 * 256 + y3 * 16 + y4
                if 56320 ≤ m ∧ m ≤ 57343 then
                  (parseStrBody fuel rest2).map (fun pr =>
                    (Char.ofNat (65536 + (n - 55296) * 1024 + (m - 56320)) :: pr.1, pr.2))
                else none
              | _, _, _, _ => none
            | _ => none
          else if 56320 ≤ n ∧ n ≤ 57343 then none
          else (parseStrBody fuel rest1).map (fun pr => (Char.ofNat n :: pr.1, pr.2))
        | _, _, _, _ => none
      | e :: rest1 =>
        match escUnescape e with
        | some ch => (parseStrBody fuel rest1).map (fun pr => (ch :: pr.1, pr.2))
        | none => none
      | [] => none
    else if c.toNat < 32 then none
    else (parseStrBody fuel rest).map (fun pr => (c :: pr.1, pr.2))

/-- Decimal digit test. -/
def isDigit (c : Char) : Bool := decide ('0' ≤ c) && decide (c ≤ '9')

/-- Longest digit run at the head of the input. -/
def takeDigits : List Char → List Char × List Char
  | [] => ([], [])
  | c :: rest =>
    if isDigit c then
      let pr := takeDigits rest
      (c :: pr.1, pr.2)
    else ([], c :: rest)

/-- JSON number integer part: `0` or a nonzero digit followed by digits. -/
def parseIntPart : List Char → Option (List Char × List Char)
  | [] => none
  | c :: rest =>
    if c = '0' then some (['0'], rest)
    else if isDigit c then
      let pr := takeDigits rest
      some (c :: pr.1, pr.2)
    else none

/-- JSON number fraction part (optional). -/
def parseFracPart (s : List Char) : Option (List Char × List Char) :=
  match s with
  | '.' :: rest =>
    let pr := takeDigits rest
    if pr.1 = [] then none else some ('.' :: pr.1, pr.2)
  | _ => some ([], s)

/-- JSON number exponent part (optional). -/
def parseExpPart : List Char → Option (List Char × List Char)
  | [] => some ([], [])
  | c :: rest =>
    if c = 'e' ∨ c = 'E' then
      match rest with
      | sgn :: rest1 =>
        if sgn = '+' ∨ sgn = '-' then
          let pr := takeDigits rest1
          if pr.1 = [] then none else some (c :: sgn :: pr.1, pr.2)
        else
          let pr := takeDigits rest
          if pr.1 = [] then none else some (c :: pr.1, pr.2)
      | [] => none
    else some ([], c :: rest)

/-- JSON number after an optional leading minus sign. -/
def parseNumBody (s : List Char) : Option (List Char × List Char) :=
  match parseIntPart s with
  | none => none
  | some (ip, r1) =>
    match parseFracPart r1 with
    | none => none
    | some (fp, r2) =>
      match parseExpPart r2 with
      | none => none
      | some (ep, r3) => some (ip ++ fp ++ ep, r3)

/-- JSON number lexeme. -/
def parseNum : List Char → Option (List Char × List Char)
  | '-' :: rest => (parseNumBody rest).map (fun pr => ('-' :: pr.1, pr.2))
  | s => parseNumBody s

mutual

/-- One JSON value at the head of the input (leading whitespace already
skipped); returns the value and the unconsumed tail. -/
def parseVal : Nat → List Char → Option (Json × List Char)
  | 0, _ => none
  | fuel + 1, s =>
    match s with
    | [] => none
    | c :: rest =>
      if c = 'n' then
        match rest with
        | 'u' :: 'l' :: 'l' :: r => some (Json.null, r)
        | _ => none
      else if c = 't' then
        match rest with
        | 'r' :: 'u' :: 'e' :: r => some (Json.bool true, r)
        | _ => none
      else if c = 'f' then
        match rest with
        | 'a' :: 'l' :: 's' :: 'e' :: r => some (Json.bool false, r)
        | _ => none
      else if c = '"' then
        (parseStrBody (rest.length + 1) rest).map (fun pr => (Json.str pr.1, pr.2))
      else if c = '[' then parseArrRest fuel (skipWs rest)
      else if c = lbrace then parseObjRest fuel (skipWs rest)
      else if c = '-' ∨ isDigit c then
        (parseNum (c :: rest)).map (fun pr => (Json.num pr.1, pr.2))
      else none

/-- Array tail right after `[` (whitespace skipped): empty array or first
element. -/
def parseArrRest : Nat → List Char → Option (Json × List Char)
  | 0, _ => none
  | fuel + 1, s =>
    match s with
    | ']' :: r => some (Json.arr [], r)
    | _ =>
      match parseVal fuel s with
      | none => none
      | some (v, r1) => parseArrMore fuel [v] (skipWs r1)

/-- Array continuation after at least one element (elements accumulated in
reverse). -/
def parseArrMore : Nat → List Json → List Char → Option (Json × List Char)
  | 0, _, _ => none
  | fuel + 1, acc, s =>
    match s with
    | ']' :: r => some (Json.arr acc.reverse, r)
    | ',' :: r =>
      match parseVal fuel (skipWs r) with
      | none => none
      | some (v, r1) => parseArrMore fuel (v :: acc) (skipWs r1)
    | _ => none

/-- Object tail right after the opening brace (whitespace skipped). -/
def parseObjRest : Nat → List Char → Option (Json × List Char)
  | 0, _ => none
  | fuel + 1, s =>
    match s with
    | c :: r =>
      if c = rbrace then some (Json.obj [], r)
      else
        match parseMember fuel (c :: r) with
        | none => none
        | some (kv, r1) => parseObjMore fuel [kv] (skipWs r1)
    | [] => none

/-- Object continuation after at least one member (members accumulated in
reverse). -/
def parseObjMore : Nat → List (List Char × Json) → List Char → Option (Json × List Char)
  | 0, _, _ => none
  | fuel + 1, acc, s =>
    match s with
    | c :: r =>
      if c = rbrace then some (Json.obj acc.reverse, r)
      else if c = ',' then
        match parseMember fuel (skipWs r) with
        | none => none
        | some (kv, r1) => parseObjMore fuel (kv :: acc) (skipWs r1)
      else none
    | [] => none

/-- One `"key" : value` object member. -/
def parseMember : Nat → List Char → Option ((List Char × Json) × List Char)
  | 0, _ => none
  | fuel + 1, s =>
    match s with
    | '"' :: r =>
      match parseStrBody (r.length + 1) r with
      | none => none
      | some (k, r1) =>
        match skipWs r1 with
        | ':' :: r2 =>
          match parseVal fuel (skipWs r2) with
          | none => none
          | some (v, r3) => some ((k, v), r3)
        | _ => none
    | _ => none

end

/-- `serde_json::from_str` at the JSON-syntax level: exactly one JSON value,
with only whitespace allowed before and after it. -/
def parseJson (cs : List Char) : Option Json :=
  match parseVal (cs.length * 2 + 8) (skipWs cs) with
  | none => none
  | some (v, rest) => if skipWs rest = [] then some v else none

/-! ### Message model and JSON transcoding -/

/-- The `Request` enum of src/api.rs (internally tagged with `type`). -/
inductive Request where
  | AccountList : Request
  | Code : String → Request
deriving DecidableEq

/-- The `Response` enum of src/api.rs (untagged on the wire). -/
inductive Response where
  | Code : String → String → Response
  | AccountList : List String → Response
  | Error : String → Response
deriving DecidableEq

/-- First binding of a key in a JSON object's member list. -/
def lookupField : List (List Char × Json) → List Char → Option Json
  | [], _ => none
  | (k, v) :: rest, key => if k = key then some v else lookupField rest key

/-- A field value, required to be a JSON string. -/
def asStr : Option Json → Option (List Char)
  | some (Json.str s) => some s
  | _ => none

/-- Number of members bound to a key in a JSON object's member list. -/
def countKey : List (List Char × Json) → List Char → Nat
  | [], _ => 0
  | (k, _) :: rest, key => (if k = key then 1 else 0) + countKey rest key

/-- Serde's internally-tagged decoding of `Request` from a JSON value: the
`type` field selects the variant, `Code` additionally requires a string
`account` field, and unknown extra fields are ignored.  A repeated `type`
member, or a repeated `account` member for the `Code` variant, is a
`duplicate_field` error in serde, so each of those keys must occur exactly
once; repeated unknown keys are ignored like any unknown field. -/
def requestOfJson : Json → Option Request
  | Json.obj fields =>
    if countKey fields (String.toList "type") = 1 then
      (asStr (lookupField fields (String.toList "type"))).bind (fun tag =>
        if tag = String.toList "AccountList" then some Request.AccountList
        else if tag = String.toList "Code" then
          if countKey fields (String.toList "account") = 1 then
            (asStr (lookupField fields (String.toList "account"))).map
              (fun a => Request.Code (String.mk a))
          else none
        else none)
    else none
  | _ => none

/-- `deserialize_request` of src/api.rs: UTF-8 validation, then
`serde_json::from_str`; every failure is collapsed to `Error::Read`. -/
def deserialize_request (raw : List Nat) : Except Error Request :=
  match utf8Decode raw with
  | none => Except.error Error.Read
  | some cs =>
    match parseJson cs with
    | none => Except.error Error.Read
    | some j =>
      match requestOfJson j with
      | none => Except.error Error.Read
      | some r => Except.ok r

/-- Lowercase hexadecimal digit, as `serde_json` renders escapes. -/
def hexDigitChar (n : Nat) : Char :=
  if n < 10 then Char.ofNat (48 + n) else Char.ofNat (97 + (n - 10))

/-- `serde_json` string escaping of one character. -/
def escapeChar (c : Char) : List Char :=
  if c = '"' then ['\\', '"']
  else if c = '\\' then ['\\', '\\']
  else if c = Char.ofNat 8 then ['\\', 'b']
  else if c = '\t' then ['\\', 't']
  else if c = '\n' then ['\\', 'n']
  else if c = Char.ofNat 12 then ['\\', 'f']
  else if c = '\r' then ['\\', 'r']
  else if c.toNat < 32 then
    ['\\', 'u', '0', '0', hexDigitChar (c.toNat / 16), hexDigitChar (c.toNat % 16)]
  else [c]

/-- Escaped body of a JSON string literal. -/
def encodeChars (cs : List Char) : List Char :=
  cs.foldr (fun c acc => escapeChar c ++ acc) []

/-- A JSON string literal for `s`. -/
def encodeJsonStr (s : String) : List Char :=
  '"' :: encodeChars s.data ++ ['"']

/-- Comma-separated JSON string literals. -/
def encodeStrArrayItems : List String → List Char
  | [] => []
  | [s] => encodeJsonStr s
  | s :: rest => encodeJsonStr s ++ (',' :: encodeStrArrayItems rest)

/-- A JSON array of strings. -/
def encodeStrArray (l : List String) : List Char :=
  '[' :: encodeStrArrayItems l ++ [']']

/-- `serde_json::to_string` on `Response`: the untagged serialization writes
each variant as a bare object, struct fields in declaration order. -/
def encodeResponse : Response → List Char
  | Response.Code account code =>
      lbrace :: encodeJsonStr "account" ++ (':' :: encodeJsonStr account) ++
        (',' :: encodeJsonStr "code") ++ (':' :: encodeJsonStr code) ++ [rbrace]
  | Response.AccountList accounts =>
      lbrace :: encodeJsonStr "accounts" ++ (':' :: encodeStrArray accounts) ++ [rbrace]
  | Response.Error err =>
      lbrace :: encodeJsonStr "error" ++ (':' :: encodeJsonStr err) ++ [rbrace]

/-- The serialized JSON payload of a response, as bytes
(`serde_json::to_string(response)?.as_bytes()`; serialization itself never
fails for these field types). -/
def responseBytes (response : Response) : List Nat :=
  utf8Encode (encodeResponse response)

/-- `serialize_response` of src/api.rs: JSON payload prefixed by its length
as a native byte order `u32`; `Error::Write` when the payload length does
not fit in a `u32`. -/
def serialize_response (response : Response) : Except Error (List Nat) :=
  let raw_output := responseBytes response
  if raw_output.length < 4294967296 then
    Except.ok (u32ToNeBytes raw_output.length ++ raw_output)
  else Except.error Error.Write

/-! ### Collaborators and the dispatcher

Modelled from the spec: the modules `yubikey`, `oath` and `time` are not
part of the protocol-layer source.  Per the spec's collaborator interfaces,
`CredentialStore.initialize` yields a store handle or a device error,
`CredentialEngine.listCredentials` yields the account names,
`CredentialEngine.computeFuzzy` yields a numeric code for a search term and
a timestamp, and `Clock.now` yields the current timestamp.  Collaborator
errors are represented by their debug-rendered text.  An `Env` fixes one
behaviour of all collaborators for one invocation; calls are recorded in an
event trace so that call order is observable. -/

/-- The opened credential-store handle (`yubikey::Yubikey`), opaque to the
protocol layer. -/
inductive Store where
  | handle : Store
deriving DecidableEq

/-- Observable collaborator calls, in the order the dispatcher makes them. -/
inductive Event where
  | getTime : Event
  | initStore : Event
  | calculateFuzzy : String → Int → Event
  | listCredentials : Event
deriving DecidableEq

/-- One invocation's collaborator behaviour. -/
structure Env where
  now : Int
  initStore : Except String Store
  listCredentials : Store → Except String (List String)
  calculateFuzzy : Store → String → Int → Except String Nat

/-- `time::get_time()`, recorded in the trace. -/
def callGetTime (env : Env) (tr : List Event) : Int × List Event :=
  (env.now, tr ++ [Event.getTime])

/-- `yubikey::Yubikey::initialize()`, recorded in the trace. -/
def callInitStore (env : Env) (tr : List Event) : Except String Store × List Event :=
  (env.initStore, tr ++ [Event.initStore])

/-- `oath::list_credentials(&y)`, recorded in the trace. -/
def callListCredentials (env : Env) (y : Store) (tr : List Event) :
    Except String (List String) × List Event :=
  (env.listCredentials y, tr ++ [Event.listCredentials])

/-- `oath::calculate_fuzzy(&y, term, ts)`, recorded in the trace. -/
def callCalculateFuzzy (env : Env) (y : Store) (term : String) (ts : Int)
    (tr : List Event) : Except String Nat × List Event :=
  (env.calculateFuzzy y term ts, tr ++ [Event.calculateFuzzy term ts])

/-- Rust's `format!("\x7b:06\x7d", n)`: decimal digits of `n`
(fuel-indexed accumulator loop). -/
def decAux : Nat → Nat → List Char → List Char
  | 0, _, acc => acc
  | fuel + 1, n, acc =>
    if n = 0 then acc else decAux fuel (n / 10) (Char.ofNat (48 + n % 10) :: acc)

/-- Decimal representation of a natural number. -/
def decRepr (n : Nat) : List Char :=
  if n = 0 then ['0'] else decAux n n []

/-- Zero-pad the decimal representation to a minimum width of 6, exactly as
`format!("\x7b:06\x7d", code)` does. -/
def format06 (code : Nat) : String :=
  String.mk (List.replicate (6 - (decRepr code).length) '0' ++ decRepr code)

/-- `read_otp` of src/api.rs: get the timestamp, initialize the store,
compute the fuzzy-matched OTP, and render; failures become
`Response::Error` with the debug text.  Returns the response and the
collaborator-call trace. -/
def read_otp (env : Env) (search_term : String) : Response × List Event :=
  let pr0 := callGetTime env []
  let timestamp := pr0.1
  let pr1 := callInitStore env pr0.2
  match pr1.1 with
  | Except.error e => (Response.Error (debugFmt (Error.Yubikey e)), pr1.2)
  | Except.ok y =>
    let pr2 := callCalculateFuzzy env y search_term timestamp pr1.2
    match pr2.1 with
    | Except.error e => (Response.Error (debugFmt (Error.Oath e)), pr2.2)
    | Except.ok code => (Response.Code search_term (format06 code), pr2.2)

/-- `read_accounts_list` of src/api.rs: initialize the store, list the
credential names; failures become `Response::Error`. -/
def read_accounts_list (env : Env) : Response × List Event :=
  let pr1 := callInitStore env []
  match pr1.1 with
  | Except.error e => (Response.Error (debugFmt (Error.Yubikey e)), pr1.2)
  | Except.ok y =>
    let pr2 := callListCredentials env y pr1.2
    match pr2.1 with
    | Except.error e => (Response.Error (debugFmt (Error.Oath e)), pr2.2)
    | Except.ok accounts => (Response.AccountList accounts, pr2.2)

/-- `handle_request` of src/api.rs: dispatch on the request variant. -/
def handle_request (env : Env) (request : Request) : Response × List Event :=
  match request with
  | Request.Code account => read_otp env account
  | Request.AccountList => read_accounts_list env

/-- `read` of src/api.rs: read one frame from the inbound stream and decode
it as a `Request`. -/
def readRequest (stdin : List Nat) : Except Error Request :=
  match read_input stdin with
  | Except.error e => Except.error e
  | Except.ok (payload, _) => deserialize_request payload

/-- `serve` of src/api.rs: read a request, dispatch it, and frame the
response to the outbound stream.  The result also carries the bytes written
to the outbound stream (empty whenever the invocation failed before the
write; the underlying stream write itself is modelled as completing). -/
def serve (env : Env) (stdin : List Nat) : Except Error Unit × List Nat :=
  match readRequest stdin with
  | Except.error e => (Except.error e, [])
  | Except.ok req =>
    match serialize_response (handle_request env req).1 with
    | Except.error e => (Except.error e, [])
    | Except.ok out => (Except.ok (), out)

theorem u32_roundtrip (n : Nat) (h : n < 4294967296) :
    u32FromNeBytes (u32ToNeBytes n) = n := by
  show n % 256 + 256 * (n / 256 % 256) + 65536 * (n / 65536 % 256) +
      16777216 * (n / 16777216 % 256) = n
  omega

theorem read_input_frame (p extra : List Nat) (h : p.length < 4294967296) :
    read_input (u32ToNeBytes p.length ++ p ++ extra) = Except.ok (p, extra) := by
  have h4 : (u32ToNeBytes p.length).length = 4 := rfl
  rw [List.append_assoc]
  simp only [read_input, readExact]
  rw [if_pos (by simp [h4] : 4 ≤ (u32ToNeBytes p.length ++ (p ++ extra)).length)]
  rw [show (4 : Nat) = (u32ToNeBytes p.length).length from rfl,
      List.take_left, List.drop_left]
  dsimp only
  rw [u32_roundtrip p.length h]
  rw [if_pos (by simp : p.length ≤ (p ++ extra).length)]
  rw [List.take_left, List.drop_left]

theorem deserialize_request_read_or_ok (bs : List Nat) :
    (∃ r, deserialize_request bs = Except.ok r) ∨
      deserialize_request bs = Except.error Error.Read := by
  cases hu : utf8Decode bs with
  | none => exact Or.inr (by simp [deserialize_request, hu])
  | some cs =>
    cases hp : parseJson cs with
    | none => exact Or.inr (by simp [deserialize_request, hu, hp])
    | some j =>
      cases hr : requestOfJson j with
      | none => exact Or.inr (by simp [deserialize_request, hu, hp, hr])
      | some r => exact Or.inl ⟨r, by simp [deserialize_request, hu, hp, hr]⟩

theorem lookupField_append (fs gs : List (List Char × Json)) (key : List Char)
    (j : Json) (h : lookupField fs key = some j) :
    lookupField (fs ++ gs) key = some j := by
  induction fs with
  | nil => simp [lookupField] at h
  | cons kv rest ih =>
    obtain ⟨k, v⟩ := kv
    simp only [lookupField, List.cons_append] at h ⊢
    by_cases hk : k = key
    · rw [if_pos hk] at h ⊢; exact h
    · rw [if_neg hk] at h ⊢; exact ih h

theorem asStr_eq_some (o : Option Json) (s : List Char) (h : asStr o = some s) :
    o = some (Json.str s) := by
  cases o with
  | none => simp [asStr] at h
  | some j =>
    cases j with
    | str t => simp only [asStr, Option.some.injEq] at h; rw [h]
    | null => simp [asStr] at h
    | bool b => simp [asStr] at h
    | num l => simp [asStr] at h
    | arr l => simp [asStr] at h
    | obj l => simp [asStr] at h

theorem asStr_some_str (s : List Char) : asStr (some (Json.str s)) = some s := rfl

theorem countKey_append (fs gs : List (List Char × Json)) (key : List Char) :
    countKey (fs ++ gs) key = countKey fs key + countKey gs key := by
  induction fs with
  | nil => simp [countKey]
  | cons kv rest ih =>
    obtain ⟨k, v⟩ := kv
    simp only [countKey, List.cons_append, List.append_eq]
    rw [ih]
    omega

theorem countKey_eq_zero (fs : List (List Char × Json)) (key : List Char)
    (h : ∀ kv ∈ fs, kv.1 ≠ key) : countKey fs key = 0 := by
  induction fs with
  | nil => rfl
  | cons kv rest ih =>
    obtain ⟨k, v⟩ := kv
    simp only [countKey]
    rw [if_neg (h (k, v) (List.mem_cons_self _ _))]
    rw [ih (fun kv2 hkv2 => h kv2 (List.mem_cons_of_mem _ hkv2))]

theorem requestOfJson_extend (fields extraFields : List (List Char × Json))
    (req : Request)
    (hunk : ∀ kv ∈ extraFields,
      kv.1 ≠ String.toList "type" ∧ kv.1 ≠ String.toList "account")
    (h : requestOfJson (Json.obj fields) = some req) :
    requestOfJson (Json.obj (fields ++ extraFields)) = some req := by
  have htz : countKey extraFields (String.toList "type") = 0 :=
    countKey_eq_zero _ _ (fun kv hkv => (hunk kv hkv).1)
  have haz : countKey extraFields (String.toList "account") = 0 :=
    countKey_eq_zero _ _ (fun kv hkv => (hunk kv hkv).2)
  simp only [requestOfJson] at h ⊢
  by_cases hct : countKey fields (String.toList "type") = 1
  · rw [if_pos hct] at h
    rw [if_pos (by rw [countKey_append, hct, htz])]
    cases ht : asStr (lookupField fields (String.toList "type")) with
    | none => rw [ht] at h; exact absurd h (by simp)
    | some tag =>
      rw [ht, Option.some_bind] at h
      rw [lookupField_append _ extraFields _ _ (asStr_eq_some _ _ ht),
        asStr_some_str, Option.some_bind]
      by_cases h1 : tag = String.toList "AccountList"
      · rw [if_pos h1] at h ⊢; exact h
      · rw [if_neg h1] at h ⊢
        by_cases h2 : tag = String.toList "Code"
        · rw [if_pos h2] at h ⊢
          by_cases hca : countKey fields (String.toList "account") = 1
          · rw [if_pos hca] at h
            rw [if_pos (by rw [countKey_append, hca, haz])]
            cases ha : asStr (lookupField fields (String.toList "account")) with
            | none => rw [ha] at h; exact absurd h (by simp)
            | some a =>
              rw [ha] at h
              rw [lookupField_append _ extraFields _ _ (asStr_eq_some _ _ ha),
                asStr_some_str]
              exact h
          · rw [if_neg hca] at h; exact absurd h (by simp)
        · rw [if_neg h2] at h; exact absurd h (by simp)
  · rw [if_neg hct] at h; exact absurd h (by simp)

theorem deserialize_request_duplicate_field :
    deserialize_request (utf8Encode (String.toList
      "\x7b\"type\":\"Code\",\"account\":\"x\",\"account\":\"z\"\x7d")) =
      Except.error Error.Read ∧
    deserialize_request (utf8Encode (String.toList
      "\x7b\"type\":\"Code\",\"type\":\"Code\",\"account\":\"x\"\x7d")) =
      Except.error Error.Read :=
  ⟨rfl, rfl⟩

theorem decAux_length_le (fuel : Nat) : ∀ n acc k, n ≤ fuel → n < 10 ^ k →
    (decAux fuel n acc).length ≤ acc.length + k := by
  induction fuel with
  | zero =>
    intro n acc k _ _
    simp [decAux]
  | succ fuel ih =>
    intro n acc k hn hk
    simp only [decAux]
    by_cases h0 : n = 0
    · rw [if_pos h0]; omega
    · rw [if_neg h0]
      have hk1 : 1 ≤ k := by
        by_contra hc
        have hk0 : k = 0 := by omega
        rw [hk0, pow_zero] at hk
        omega
      have hdiv : n / 10 ≤ fuel := by
        have := Nat.div_lt_self (Nat.pos_of_ne_zero h0) (by omega : 1 < 10)
        omega
      have hlt : n / 10 < 10 ^ (k - 1) := by
        rw [Nat.div_lt_iff_lt_mul (by omega : 0 < 10)]
        calc n < 10 ^ k := hk
        _ = 10 ^ (k - 1) * 10 := by
            rw [← pow_succ]
            congr 1
            omega
      have := ih (n / 10) (Char.ofNat (48 + n % 10) :: acc) (k - 1) hdiv hlt
      simp only [List.length_cons] at this
      omega

theorem decRepr_length_le (n k : Nat) (hk : 1 ≤ k) (h : n < 10 ^ k) :
    (decRepr n).length ≤ k := by
  unfold decRepr
  by_cases h0 : n = 0
  · rw [if_pos h0]; simpa using hk
  · rw [if_neg h0]
    have := decAux_length_le n n [] k le_rfl h
    simpa using this

theorem format06_length (code : Nat) (h : code < 1000000) :
    (format06 code).length = 6 := by
  have hle : (decRepr code).length ≤ 6 := by
    refine decRepr_length_le code 6 (by omega) ?_
    norm_num
    exact h
  show (List.replicate (6 - (decRepr code).length) '0' ++ decRepr code).length = 6
  rw [List.length_append, List.length_replicate]
  omega

/-! ### Concrete collaborator behaviours used as witnesses -/

/-- A collaborator behaviour whose device fails to open. -/
def initFailEnv : Env where
  now := 7
  initStore := Except.error "dead"
  listCredentials := fun _ => Except.ok []
  calculateFuzzy := fun _ _ _ => Except.ok 0

/-- A collaborator behaviour whose engine calls fail after the store opens. -/
def engineFailEnv : Env where
  now := 7
  initStore := Except.ok Store.handle
  listCredentials := fun _ => Except.error "nope"
  calculateFuzzy := fun _ _ _ => Except.error "nope"

/-- A healthy collaborator behaviour returning the numeric OTP 42. -/
def okCodeEnv : Env where
  now := 7
  initStore := Except.ok Store.handle
  listCredentials := fun _ => Except.ok ["a@x.com", "b@y.com"]
  calculateFuzzy := fun _ _ _ => Except.ok 42

/-- A collaborator behaviour whose engine returns a seven-digit value. -/
def bigCodeEnv : Env where
  now := 7
  initStore := Except.ok Store.handle
  listCredentials := fun _ => Except.ok []
  calculateFuzzy := fun _ _ _ => Except.ok 1234567

/-! ## The claims -/

/-- C1: for every payload `P` whose length fits in a `u32`, reading a framed
message from a stream beginning with the 4-byte native byte order length
prefix of `P` followed by `P` returns exactly `P`, with every byte beyond
the frame left unconsumed and uninspected (the result is the same for every
suffix `extra`); in particular `read_input` applied to a frame produced by
`serialize_response` reproduces the serialized payload. -/
theorem C1_framing_roundtrip (p extra : List Nat) (h : p.length < 4294967296) :
    read_input (u32ToNeBytes p.length ++ p ++ extra) = Except.ok (p, extra) ∧
    (∀ r out, serialize_response r = Except.ok out →
      read_input (out ++ extra) = Except.ok (responseBytes r, extra)) := by
  refine ⟨read_input_frame p extra h, ?_⟩
  intro r out hro
  simp only [serialize_response] at hro
  by_cases hlen : (responseBytes r).length < 4294967296
  · rw [if_pos hlen] at hro
    cases hro
    exact read_input_frame (responseBytes r) extra hlen
  · rw [if_neg hlen] at hro
    exact absurd hro (by simp)

/-- Witness for C1 at a concrete frame and a concrete response. -/
theorem C1_witness :
    read_input (u32ToNeBytes (List.length [10, 20, 30]) ++ [10, 20, 30] ++ [99, 98]) =
      Except.ok ([10, 20, 30], [99, 98]) ∧
    read_input ((u32ToNeBytes 22 ++ responseBytes (Response.Error "some error")) ++ [99, 98]) =
      Except.ok (responseBytes (Response.Error "some error"), [99, 98]) := by
  refine ⟨(C1_framing_roundtrip [10, 20, 30] [99, 98] (by decide)).1, ?_⟩
  exact (C1_framing_roundtrip [10, 20, 30] [99, 98] (by decide)).2
    (Response.Error "some error")
    (u32ToNeBytes 22 ++ responseBytes (Response.Error "some error")) rfl

/-- C2: dispatch always produces exactly one response; any store or engine
failure (for either variant) is converted into `Response.Error` carrying
exactly the debug-rendered failure text, and is never propagated. -/
theorem C2_dispatch_error_isolation (env : Env) (req : Request) :
    (∃! resp, (handle_request env req).1 = resp) ∧
    (∀ e, env.initStore = Except.error e →
      (handle_request env req).1 = Response.Error (debugFmt (Error.Yubikey e))) ∧
    (∀ y a e, env.initStore = Except.ok y →
      env.calculateFuzzy y a env.now = Except.error e →
      (handle_request env (Request.Code a)).1 = Response.Error (debugFmt (Error.Oath e))) ∧
    (∀ y e, env.initStore = Except.ok y →
      env.listCredentials y = Except.error e →
      (handle_request env Request.AccountList).1 =
        Response.Error (debugFmt (Error.Oath e))) := by
  refine ⟨⟨(handle_request env req).1, rfl, fun y hy => hy.symm⟩, ?_, ?_, ?_⟩
  · intro e he
    cases req with
    | AccountList => simp [handle_request, read_accounts_list, callInitStore, he]
    | Code a => simp [handle_request, read_otp, callGetTime, callInitStore, he]
  · intro y a e hy hc
    simp [handle_request, read_otp, callGetTime, callInitStore, callCalculateFuzzy, hy, hc]
  · intro y e hy hl
    simp [handle_request, read_accounts_list, callInitStore, callListCredentials, hy, hl]

/-- Witness for C2 at concrete failing collaborators. -/
theorem C2_witness :
    (handle_request initFailEnv Request.AccountList).1 = Response.Error "Yubikey(dead)" ∧
    (handle_request engineFailEnv (Request.Code "x")).1 = Response.Error "Oath(nope)" ∧
    (handle_request engineFailEnv Request.AccountList).1 = Response.Error "Oath(nope)" := by
  refine ⟨?_, ?_, ?_⟩
  · exact ((C2_dispatch_error_isolation initFailEnv Request.AccountList).2.1 "dead"
      rfl).trans (by rfl)
  · exact ((C2_dispatch_error_isolation engineFailEnv (Request.Code "x")).2.2.1
      Store.handle "x" "nope" rfl rfl).trans (by rfl)
  · exact ((C2_dispatch_error_isolation engineFailEnv Request.AccountList).2.2.2
      Store.handle "nope" rfl rfl).trans (by rfl)

/-- C3: request decoding fails with the single `Error.Read` kind for every
malformed input — non-UTF-8 bytes, empty input, malformed JSON, leading or
trailing bytes, a wrong-typed `account`, a missing `account`, an unknown
discriminator — and no other error kind can ever be produced. -/
theorem C3_decode_single_error_kind :
    (∀ bs : List Nat, (∃ r, deserialize_request bs = Except.ok r) ∨
      deserialize_request bs = Except.error Error.Read) ∧
    deserialize_request [255] = Except.error Error.Read ∧
    deserialize_request [] = Except.error Error.Read ∧
    deserialize_request (utf8Encode (String.toList "\x7b\"account\":\"rust-lang.org\x7d")) =
      Except.error Error.Read ∧
    deserialize_request (utf8Encode (String.toList
      "2134\x7b\"type\":\"Code\",\"account\":\"rust-lang.org\"\x7d")) =
      Except.error Error.Read ∧
    deserialize_request (utf8Encode (String.toList
      "\x7b\"type\":\"Code\",\"account\":\"rust-lang.org\"\x7d231412")) =
      Except.error Error.Read ∧
    deserialize_request (utf8Encode (String.toList "\x7b\"type\":\"Code\",\"account\":22\x7d")) =
      Except.error Error.Read ∧
    deserialize_request (utf8Encode (String.toList "\x7b\"type\":\"Code\"\x7d")) =
      Except.error Error.Read ∧
    deserialize_request (utf8Encode (String.toList "\x7b\"type\":\"Foo\"\x7d")) =
      Except.error Error.Read :=
  ⟨deserialize_request_read_or_ok, rfl, rfl, rfl, rfl, rfl, rfl, rfl, rfl⟩

/-- C4: whenever the frame read fails or the payload fails to decode, the
invocation fails with the read-error kind and nothing is written to the
outbound stream; a stream shorter than its 4-byte header, or one whose
declared length exceeds the available bytes, does fail that way. -/
theorem C4_read_failure_fails_invocation (env : Env) (stdin : List Nat)
    (h : read_input stdin = Except.error Error.Read ∨
      (∃ p rest, read_input stdin = Except.ok (p, rest) ∧
        deserialize_request p = Except.error Error.Read)) :
    serve env stdin = (Except.error Error.Read, []) ∧
    (stdin.length < 4 → read_input stdin = Except.error Error.Read) ∧
    (∀ declared rest2, stdin = u32ToNeBytes declared ++ rest2 →
      declared < 4294967296 → rest2.length < declared →
      read_input stdin = Except.error Error.Read) := by
  refine ⟨?_, ?_, ?_⟩
  · have hr : readRequest stdin = Except.error Error.Read := by
      rcases h with h1 | ⟨p, rest, h2, h3⟩
      · simp [readRequest, h1]
      · simp [readRequest, h2, h3]
    simp [serve, hr]
  · intro hlen
    simp only [read_input, readExact]
    rw [if_neg (by omega)]
  · intro declared rest2 hs hd hlt
    subst hs
    simp only [read_input, readExact]
    rw [if_pos (by simp [u32ToNeBytes])]
    rw [show (4 : Nat) = (u32ToNeBytes declared).length from rfl,
      List.take_left, List.drop_left]
    dsimp only
    rw [u32_roundtrip declared hd]
    rw [if_neg (by omega)]

/-- Witness for C4: the spec's scenario 3, a header declaring 27 payload
bytes with only 10 bytes following. -/
theorem C4_witness :
    serve okCodeEnv (u32ToNeBytes 27 ++ List.replicate 10 65) =
      (Except.error Error.Read, []) :=
  (C4_read_failure_fails_invocation okCodeEnv (u32ToNeBytes 27 ++ List.replicate 10 65)
    (Or.inl (by rfl))).1

/-- C5 counterexample: with the engine returning the numeric value 1234567,
the rendered code field is the seven-character string "1234567", so the
code field is not always a fixed 6-digit string. -/
theorem C5_counterexample :
    (read_otp bigCodeEnv "a").1 = Response.Code "a" "1234567" ∧
    ¬ String.length "1234567" = 6 :=
  ⟨rfl, by decide⟩

/-- C5 (amended): the code field is the decimal rendering of the engine's
numeric value zero-padded to a minimum width of six: every value below 10^6
renders as exactly six zero-padded digits (42 as "000042", 123456 as
"123456"), while values with more than six digits keep all their digits. -/
theorem C5_amended_min_width_six (env : Env) (term : String) (y : Store) (code : Nat)
    (h1 : env.initStore = Except.ok y)
    (h2 : env.calculateFuzzy y term env.now = Except.ok code) :
    (read_otp env term).1 = Response.Code term (format06 code) ∧
    (code < 1000000 → (format06 code).length = 6) ∧
    format06 42 = "000042" ∧ format06 123456 = "123456" := by
  refine ⟨?_, fun hc => format06_length code hc, rfl, rfl⟩
  simp [read_otp, callGetTime, callInitStore, callCalculateFuzzy, h1, h2]

/-- Witness for the amended C5 at a healthy engine returning 42. -/
theorem C5_witness :
    (read_otp okCodeEnv "rust-lang.org").1 =
      Response.Code "rust-lang.org" (format06 42) ∧
    (42 < 1000000 → (format06 42).length = 6) ∧
    format06 42 = "000042" ∧ format06 123456 = "123456" :=
  C5_amended_min_width_six okCodeEnv "rust-lang.org" Store.handle 42 rfl rfl

/-- C6: encoding a response always produces the JSON payload prefixed by its
exact byte length in native byte order, and fails — as `Error.Write` — only
when that length exceeds the range of a `u32`. -/
theorem C6_length_header_exact (r : Response) :
    ((responseBytes r).length < 4294967296 →
      serialize_response r =
        Except.ok (u32ToNeBytes (responseBytes r).length ++ responseBytes r) ∧
      u32FromNeBytes (u32ToNeBytes (responseBytes r).length) = (responseBytes r).length) ∧
    (4294967296 ≤ (responseBytes r).length →
      serialize_response r = Except.error Error.Write) := by
  constructor
  · intro hlen
    exact ⟨by simp [serialize_response, hlen], u32_roundtrip _ hlen⟩
  · intro hlen
    have hn : ¬ (responseBytes r).length < 4294967296 := by omega
    simp [serialize_response, hn]

/-- Witness for C6 at a concrete response. -/
theorem C6_witness :
    serialize_response (Response.Error "some error") =
      Except.ok (u32ToNeBytes (responseBytes (Response.Error "some error")).length ++
        responseBytes (Response.Error "some error")) ∧
    u32FromNeBytes (u32ToNeBytes (responseBytes (Response.Error "some error")).length) =
      (responseBytes (Response.Error "some error")).length :=
  (C6_length_header_exact (Response.Error "some error")).1 (by decide)

/-- C7: a Code request first reads the clock, then initializes the store,
then — only on success — queries the engine with the request's account and
that same timestamp, and on success answers `Code` with the account and the
rendered code. -/
theorem C7_code_request_call_order (env : Env) (term : String) :
    (read_otp env term).2.take 2 = [Event.getTime, Event.initStore] ∧
    (∀ e, env.initStore = Except.error e →
      (read_otp env term).2 = [Event.getTime, Event.initStore]) ∧
    (∀ y, env.initStore = Except.ok y →
      (read_otp env term).2 =
        [Event.getTime, Event.initStore, Event.calculateFuzzy term env.now] ∧
      (∀ code, env.calculateFuzzy y term env.now = Except.ok code →
        (read_otp env term).1 = Response.Code term (format06 code))) ∧
    handle_request env (Request.Code term) = read_otp env term := by
  refine ⟨?_, ?_, ?_, rfl⟩
  · simp only [read_otp, callGetTime, callInitStore, callCalculateFuzzy]
    cases env.initStore with
    | error e => simp
    | ok y =>
      cases hcf : env.calculateFuzzy y term env.now with
      | error e => simp [hcf]
      | ok code => simp [hcf]
  · intro e he
    simp [read_otp, callGetTime, callInitStore, he]
  · intro y hy
    refine ⟨?_, ?_⟩
    · simp only [read_otp, callGetTime, callInitStore, callCalculateFuzzy, hy]
      cases hcf : env.calculateFuzzy y term env.now with
      | error e => simp [hcf]
      | ok code => simp [hcf]
    · intro code hc
      simp [read_otp, callGetTime, callInitStore, callCalculateFuzzy, hy, hc]

/-- Witness for C7 at a healthy collaborator behaviour. -/
theorem C7_witness :
    (read_otp okCodeEnv "rust-lang.org").2 =
      [Event.getTime, Event.initStore, Event.calculateFuzzy "rust-lang.org" 7] ∧
    (read_otp okCodeEnv "rust-lang.org").1 = Response.Code "rust-lang.org" "000042" := by
  have h := (C7_code_request_call_order okCodeEnv "rust-lang.org").2.2.1 Store.handle rfl
  exact ⟨h.1.trans (by rfl), (h.2 42 rfl).trans (by rfl)⟩

/-- C8: unknown extra fields are ignored: appending members with unknown
keys (any key other than the known `type` and `account` fields, whose
repetition serde rejects as `duplicate_field`) to any decodable request
object never changes the decoded request nor causes a failure, and the
spec's concrete pair of inputs decodes identically. -/
theorem C8_unknown_fields_ignored (fields extraFields : List (List Char × Json))
    (req : Request)
    (hunk : ∀ kv ∈ extraFields,
      kv.1 ≠ String.toList "type" ∧ kv.1 ≠ String.toList "account")
    (h : requestOfJson (Json.obj fields) = some req) :
    requestOfJson (Json.obj (fields ++ extraFields)) = some req ∧
    deserialize_request (utf8Encode (String.toList
        "\x7b\"type\":\"Code\",\"account\":\"x\",\"extra\":\"y\"\x7d")) =
      deserialize_request (utf8Encode (String.toList
        "\x7b\"type\":\"Code\",\"account\":\"x\"\x7d")) ∧
    deserialize_request (utf8Encode (String.toList
        "\x7b\"type\":\"Code\",\"account\":\"x\",\"extra\":\"y\"\x7d")) =
      Except.ok (Request.Code "x") :=
  ⟨requestOfJson_extend fields extraFields req hunk h, rfl, rfl⟩

/-- Witness for C8: the spec's object extended with an unknown member. -/
theorem C8_witness :
    requestOfJson (Json.obj ([(String.toList "type", Json.str (String.toList "Code")),
        (String.toList "account", Json.str (String.toList "x"))] ++
      [(String.toList "extra", Json.str (String.toList "y"))])) =
      some (Request.Code "x") :=
  (C8_unknown_fields_ignored
    [(String.toList "type", Json.str (String.toList "Code")),
      (String.toList "account", Json.str (String.toList "x"))]
    [(String.toList "extra", Json.str (String.toList "y"))]
    (Request.Code "x") (by decide) rfl).1

/-- C9: a successful Code response's account field is exactly the search
term from the request (the engine returns only a numeric code, so the
matched credential's own name cannot be surfaced). -/
theorem C9_account_is_search_term (env : Env) (term a c : String)
    (h : (read_otp env term).1 = Response.Code a c) : a = term := by
  cases henv : env.initStore with
  | error e =>
    simp [read_otp, callGetTime, callInitStore, henv] at h
  | ok y =>
    cases hc : env.calculateFuzzy y term env.now with
    | error e =>
      simp [read_otp, callGetTime, callInitStore, callCalculateFuzzy, henv, hc] at h
    | ok code =>
      simp [read_otp, callGetTime, callInitStore, callCalculateFuzzy, henv, hc] at h
      exact h.1.symm

/-- Witness for C9 at a healthy collaborator behaviour. -/
theorem C9_witness :
    (read_otp okCodeEnv "b@y.com").1 = Response.Code "b@y.com" "000042" ∧
    ("b@y.com" : String) = "b@y.com" :=
  ⟨rfl, C9_account_is_search_term okCodeEnv "b@y.com" "b@y.com" "000042" rfl⟩

/-- C10: a frame with a zero length prefix is accepted by the framing
reader with the empty payload (all later bytes unconsumed), and decoding
the empty payload fails with `Error.Read`, so a zero-length frame never
yields a valid request. -/
theorem C10_zero_length_frame (extra : List Nat) :
    read_input (u32ToNeBytes 0 ++ extra) = Except.ok ([], extra) ∧
    deserialize_request [] = Except.error Error.Read := by
  constructor
  · have h := read_input_frame [] extra (by decide)
    simpa using h
  · rfl

end YkTotp
